import Mathlib

/-!
Shallow embedding of the client of the Indian Stock Analysis Dashboard
(frontend script: typeahead suggestion controller, debounce, search
pipeline, profile store, number formatting, auto-refresh poll), together
with proofs about the embedded operations.

JavaScript numbers that the claims touch are finite, so they are embedded
as exact fractions (`JsNum`): an integer numerator and a natural
denominator, kept unnormalised so that every arithmetic step is plain
integer arithmetic and reduces inside the kernel.  A well-formed value has
a positive denominator (`0 < den`).
-/

/-- Exact-fraction embedding of a finite JavaScript number. -/
structure JsNum where
  num : ℤ
  den : ℕ
  deriving DecidableEq, Repr

/-- Embed an integer as a JavaScript number. -/
def JsNum.ofInt (n : ℤ) : JsNum := ⟨n, 1⟩

/-- The rational value denoted by a `JsNum`. -/
def JsNum.toRat (q : JsNum) : ℚ := (q.num : ℚ) / (q.den : ℚ)

/-- The JavaScript comparison `a <= b`, by cross multiplication
(denominators are nonnegative). -/
def JsNum.le (a b : JsNum) : Bool := decide (a.num * (b.den : ℤ) ≤ b.num * (a.den : ℤ))

/-- Division of a JavaScript number by a positive integer literal
(as in `num / 10000000`). -/
def JsNum.divN (a : JsNum) (d : ℕ) : JsNum := ⟨a.num, a.den * d⟩

/-- Decimal digits of a natural number, most significant first. -/
def natDigits (n : ℕ) : List Char := Nat.toDigits 10 n

/-- `toFixed(2)`: the value scaled to hundredths and rounded to the nearest
integer, ties toward positive infinity (the tie-breaking rule of
`Number.prototype.toFixed`).  `floor (q * 100 + 1/2)` computed on the raw
fraction: `(200 * num + den) fdiv (2 * den)`. -/
def toFixed2Hundredths (q : JsNum) : ℤ :=
  Int.fdiv (200 * q.num + (q.den : ℤ)) (2 * (q.den : ℤ))

/-- Render of `value.toFixed(2)`: sign, integer part, a dot, and exactly two
decimal digits. -/
def toFixed2 (q : JsNum) : String :=
  let n : ℤ := toFixed2Hundredths q
  let sign := if n < 0 then "-" else ""
  let m : ℕ := n.natAbs
  sign ++ String.mk (natDigits (m / 100)) ++ "." ++
    (if m % 100 < 10 then "0" else "") ++ String.mk (natDigits (m % 100))

/-- Indian-locale digit grouping of the higher digits: the reversed digit
list is split into pairs, a comma after each complete pair that is followed
by more digits. -/
def groupPairsRev : List Char → List Char
  | a :: b :: c :: rest => a :: b :: ',' :: groupPairsRev (c :: rest)
  | l => l

/-- `en-IN` grouping of a digit string: the last three digits form one
group, the remaining digits are grouped in pairs. -/
def groupIndian (ds : List Char) : List Char :=
  let r := ds.reverse
  let low := r.take 3
  let high := r.drop 3
  ((low ++ (if high.isEmpty then [] else ',' :: groupPairsRev high))).reverse

/-- `Number(num).toLocaleString('en-IN')`: round to at most three fraction
digits (half away from zero), group the integer part Indian style, keep a
leading minus for negative values, and drop trailing fraction zeros. -/
def toLocaleStringEnIN (q : JsNum) : String :=
  let a : ℕ := q.num.natAbs
  let thousandths : ℕ := (2000 * a + q.den) / (2 * q.den)
  let intPart := thousandths / 1000
  let fracPart := thousandths % 1000
  let sign := if q.num < 0 then "-" else ""
  let fracDigits :=
    if fracPart = 0 then "" else
      let padded :=
        (if fracPart < 10 then "00" else if fracPart < 100 then "0" else "") ++
          String.mk (natDigits fracPart)
      "." ++ String.mk (padded.data.reverse.dropWhile (fun c => c == '0')).reverse
  sign ++ String.mk (groupIndian (natDigits intPart)) ++ fracDigits

/-- The three output shapes of `formatNumber`, each carrying the exact
value handed to its renderer. -/
inductive NumForm where
  | cr (v : JsNum)
  | lakh (v : JsNum)
  | plain (v : JsNum)
  deriving DecidableEq, Repr

/-- `formatNumber` (frontend script): crore branch for `num >= 10000000`,
lakh branch for `num >= 100000`, otherwise the plain locale form; the
branches are tested in exactly that order. -/
def formatNumber (num : JsNum) : NumForm :=
  if JsNum.le (JsNum.ofInt 10000000) num then NumForm.cr (num.divN 10000000)
  else if JsNum.le (JsNum.ofInt 100000) num then NumForm.lakh (num.divN 100000)
  else NumForm.plain num

/-- String render of a `NumForm`, exactly as the template strings of
`formatNumber` build it. -/
def NumForm.render : NumForm → String
  | NumForm.cr v => "₹" ++ toFixed2 v ++ " Cr"
  | NumForm.lakh v => "₹" ++ toFixed2 v ++ " L"
  | NumForm.plain v => "₹" ++ toLocaleStringEnIN v

/-- The full `formatNumber` pipeline: branch selection followed by render. -/
def formatNumberStr (num : JsNum) : String := (formatNumber num).render

/-- One signed numeric field of the change line of `displayStockInfo`:
`Number.isFinite(v) && v >= 0 ? '+' : ''` followed by `v.toFixed(2)` when
finite and `'-'` otherwise.  `none` embeds a non-finite or missing value. -/
def signedFixed2 : Option JsNum → String
  | some v => (if JsNum.le (JsNum.ofInt 0) v then "+" else "") ++ toFixed2 v
  | none => "-"

/-- The `changeText` template of `displayStockInfo`: the signed change, a
space, and the signed change percentage in parentheses with a percent
sign. -/
def changeText (change changePct : Option JsNum) : String :=
  signedFixed2 change ++ " (" ++ signedFixed2 changePct ++ "%)"

/-- The class-name assignment of `displayStockInfo`:
`Number.isFinite(changeVal) && changeVal >= 0` selects the positive
style, everything else the negative one. -/
def changeClassName (change : Option JsNum) : String :=
  match change with
  | some v => if JsNum.le (JsNum.ofInt 0) v then "price-change positive" else "price-change negative"
  | none => "price-change negative"

/-- `navigateSuggestions` (frontend script), reduced to its index action:
with no rendered items it returns unchanged; `'down'` maps the active
index `i` to `(i + 1) % n` and `'up'` maps it to `(i - 1 + n) % n`, both
with the truncating remainder of JavaScript's `%`. -/
def navigateSuggestions (direction : String) (numItems : ℕ) (activeIndex : ℤ) : ℤ :=
  if numItems = 0 then activeIndex
  else if direction = "down" then Int.tmod (activeIndex + 1) (numItems : ℤ)
  else if direction = "up" then Int.tmod (activeIndex - 1 + (numItems : ℤ)) (numItems : ℤ)
  else activeIndex

/-- JavaScript `String.prototype.trim` on the whitespace the claims use. -/
def jsTrim (s : String) : String :=
  String.mk (((s.data.dropWhile Char.isWhitespace).reverse.dropWhile Char.isWhitespace).reverse)

/-- JavaScript `String.prototype.toUpperCase` on the ASCII inputs the
claims use. -/
def jsToUpper (s : String) : String := String.mk (s.data.map Char.toUpper)

/-!
Debounce (frontend script `debounce`, wired to the input event): each call
clears the pending `suggestTimer` and schedules the wrapped handler
`delay` ms later.  The handler reads `e.target.value` when it finally
runs, i.e. the text of the search field at firing time.  A keystroke
stream is a list of `(time, input text after the keystroke)` pairs in
arrival order; `debounceGo` simulates the timer: a pending timer whose
deadline has passed fires before the next keystroke is handled, every
keystroke replaces the pending timer with a fresh one, and a timer still
pending after the last keystroke fires at its deadline with the final
text.  The result lists every firing as `(fire time, text read)`.
-/

/-- Timer simulation for the debounced input handler. -/
def debounceGo (delay : ℕ) (pending : Option ℕ) (text : String) :
    List (ℕ × String) → List (ℕ × String)
  | [] =>
    match pending with
    | some f => [(f, text)]
    | none => []
  | (t, s) :: rest =>
    match pending with
    | some f =>
      if f ≤ t then (f, text) :: debounceGo delay (some (t + delay)) s rest
      else debounceGo delay (some (t + delay)) s rest
    | none => debounceGo delay (some (t + delay)) s rest

/-- Run the debounced input handler from the idle state on a keystroke
stream. -/
def debounceRun (delay : ℕ) (events : List (ℕ × String)) : List (ℕ × String) :=
  debounceGo delay none "" events

/-- A keystroke burst: strictly increasing times, each keystroke less than
`delay` after the previous one. -/
def burstOk (delay : ℕ) : List (ℕ × String) → Bool
  | [] => true
  | [_] => true
  | a :: b :: rest => (a.1 < b.1 && b.1 < a.1 + delay) && burstOk delay (b :: rest)

/-- The debounced input listener body: trims the field text and hands it
to `fetchSuggestions`. -/
def inputHandlerQuery (text : String) : String := jsTrim text

/-!
Typeahead suggestion state (frontend script): `lastSuggestions` and
`activeIndex` are module globals; `renderSuggestions` replaces the list
wholesale and resets the active index; `fetchSuggestions(q)` clears the
list for short queries without a request, otherwise issues a request and,
whenever its response arrives, applies `renderSuggestions` to the
response payload (an array) or to `[]` (non-array or thrown error).
Nothing in the code records which request a response answers.
-/

/-- A suggestion item as the dropdown consumes it. -/
structure Sugg where
  symbol : String
  exchange : String
  name : Option String
  deriving DecidableEq, Repr

/-- Typeahead controller state. -/
structure SuggestState where
  lastSuggestions : List Sugg
  activeIndex : ℤ
  issued : List String
  deriving DecidableEq, Repr

/-- `renderSuggestions(items)`: wholesale replacement of the list, active
index reset to `-1`. -/
def renderSuggestions (st : SuggestState) (items : List Sugg) : SuggestState :=
  { st with lastSuggestions := items, activeIndex := -1 }

/-- One observable event of the suggestion controller: a fetch being
issued for a query, or a response arriving for the fetch that was issued
for `forQuery` (with its payload when the request succeeded with an
array body). -/
inductive SuggestEvent where
  | issue (q : String)
  | arriveOk (forQuery : String) (data : List Sugg)
  | arriveErr (forQuery : String)
  deriving DecidableEq, Repr

/-- Step function of the suggestion controller, straight from
`fetchSuggestions`: a short query clears the dropdown immediately, a long
one records an issued request; an arriving response is applied by
`renderSuggestions` unconditionally — the code keeps no request identity,
so the handler cannot tell a stale response from the latest one. -/
def suggestStep (st : SuggestState) : SuggestEvent → SuggestState
  | SuggestEvent.issue q =>
    if q = "" ∨ q.length < 2 then renderSuggestions st []
    else { st with issued := st.issued ++ [q] }
  | SuggestEvent.arriveOk _ data => renderSuggestions st data
  | SuggestEvent.arriveErr _ => renderSuggestions st []

/-- Run the suggestion controller over a trace of events. -/
def suggestRun (st : SuggestState) : List SuggestEvent → SuggestState
  | [] => st
  | e :: rest => suggestRun (suggestStep st e) rest

/-- Initial typeahead state. -/
def suggestInit : SuggestState := ⟨[], -1, []⟩

/-!
Search pipeline (frontend script `searchStock`) and recommendation
request (`getRecommendations`).  Each run of one of these async functions
is embedded as a function of the input, the outcome of its network
continuation, and the UI state before the call; it returns the final UI
state and the list of requests it issued.  The outcome type enumerates
the three ways the awaited part can end: a 2xx response with a parsed
body, a non-2xx response (with the optional `error` field of its body),
or a thrown exception (network failure or a body that fails to parse).
-/

/-- Outcome of the awaited part of `searchStock`. -/
inductive FetchOutcome where
  | ok (name : String)
  | httpError (errMsg : Option String)
  | thrown
  deriving DecidableEq, Repr

/-- The UI state that `searchStock` touches. -/
structure SearchUI where
  searchBtnHtml : String
  searchBtnDisabled : Bool
  stockNameShown : Option String
  stockInfoPanelVisible : Bool
  newsRequested : Option String
  pollSymbol : Option String
  alertMsg : Option String
  deriving DecidableEq, Repr

/-- `searchStock`: trim and uppercase the field text; an empty symbol
returns before touching anything; otherwise mark the button busy, issue
the search request, handle the outcome (render + news + panel + poll on
success, an alert otherwise), and in the `finally` block restore the
button label and re-enable it. -/
def searchStock (inputText : String) (outcome : FetchOutcome) (ui : SearchUI) :
    SearchUI × List String :=
  let symbol := jsToUpper (jsTrim inputText)
  if symbol = "" then (ui, [])
  else
    let ui1 := { ui with searchBtnHtml := "<span class=\"loading\"></span>",
                         searchBtnDisabled := true }
    let step :=
      match outcome with
      | FetchOutcome.ok name =>
        ({ ui1 with stockNameShown := some name,
                    newsRequested := some symbol,
                    stockInfoPanelVisible := true,
                    pollSymbol := some symbol },
         ["/api/search/" ++ symbol, "/api/news/" ++ symbol])
      | FetchOutcome.httpError errMsg =>
        ({ ui1 with alertMsg := some (errMsg.getD "Stock not found. Please check the symbol.") },
         ["/api/search/" ++ symbol])
      | FetchOutcome.thrown =>
        ({ ui1 with alertMsg := some "Error fetching stock data. Please try again." },
         ["/api/search/" ++ symbol])
    ({ step.1 with searchBtnHtml := "Search", searchBtnDisabled := false }, step.2)

/-- Outcome of the awaited part of `getRecommendations`.  A non-2xx
response makes the function itself throw (`throw new Error(...)`), which
its own catch block handles, so it shares the alert path with a thrown
exception. -/
inductive RecOutcome where
  | ok (recCount : ℕ)
  | httpError (errMsg : Option String)
  | thrown
  deriving DecidableEq, Repr

/-- The UI state that `getRecommendations` touches. -/
structure RecUI where
  recBtnHtml : String
  recBtnDisabled : Bool
  recsShown : Option ℕ
  alertMsg : Option String
  deriving DecidableEq, Repr

/-- `getRecommendations`: mark the button busy, post the profile, display
the result on success, alert on a non-2xx or thrown failure, and in the
`finally` block restore the button label and re-enable it. -/
def getRecommendations (outcome : RecOutcome) (ui : RecUI) : RecUI :=
  let ui1 := { ui with recBtnHtml := "<span class=\"loading\"></span> Loading...",
                       recBtnDisabled := true }
  let ui2 :=
    match outcome with
    | RecOutcome.ok n => { ui1 with recsShown := some n }
    | RecOutcome.httpError _ =>
      { ui1 with alertMsg := some "Error getting recommendations. Please try again." }
    | RecOutcome.thrown =>
      { ui1 with alertMsg := some "Error getting recommendations. Please try again." }
  { ui2 with recBtnHtml := "Get Recommendations", recBtnDisabled := false }

/-!
Auto-refresh poll (frontend script `startAutoRefresh` / `stopAutoRefresh`):
`refreshInterval` is a module global holding the last created interval
handle; `startAutoRefresh` clears the held interval if the global is
non-null and then stores a fresh `setInterval` handle; `stopAutoRefresh`
clears the held interval if non-null (and leaves the global as is).  The
host timer table is embedded as the list of live interval ids plus a
fresh-id counter.
-/

/-- The host's interval table: live interval ids and the next fresh id. -/
structure TimerSys where
  active : List ℕ
  next : ℕ
  deriving DecidableEq, Repr

/-- `clearInterval(id)`: the id stops being live; clearing a dead id is a
no-op. -/
def clearIntervalSys (ts : TimerSys) (id : ℕ) : TimerSys :=
  { ts with active := ts.active.erase id }

/-- `setInterval(...)`: a fresh id becomes live and is returned. -/
def setIntervalSys (ts : TimerSys) : TimerSys × ℕ :=
  ({ active := ts.next :: ts.active, next := ts.next + 1 }, ts.next)

/-- The poll state: the timer table plus the `refreshInterval` global
(`none` embeds the initial `null`). -/
structure PollState where
  sys : TimerSys
  refreshInterval : Option ℕ
  deriving DecidableEq, Repr

/-- `startAutoRefresh`: clear the held interval if any, then store a fresh
one. -/
def startAutoRefresh (st : PollState) : PollState :=
  let sys1 :=
    match st.refreshInterval with
    | some id => clearIntervalSys st.sys id
    | none => st.sys
  let created := setIntervalSys sys1
  { sys := created.1, refreshInterval := some created.2 }

/-- `stopAutoRefresh`: clear the held interval if any; the global keeps
its (now dead) handle. -/
def stopAutoRefresh (st : PollState) : PollState :=
  match st.refreshInterval with
  | some id => { st with sys := clearIntervalSys st.sys id }
  | none => st

/-- Poll-state well-formedness maintained by the code: either no interval
is live, or exactly the held handle is live (so at most one interval is
ever live); and the held handle, if any, is older than the fresh-id
counter. -/
def PollInv (st : PollState) : Prop :=
  (st.sys.active = [] ∨ ∃ id, st.refreshInterval = some id ∧ st.sys.active = [id]) ∧
  (∀ id, st.refreshInterval = some id → id < st.sys.next)

/-!
JSON: embedding of the host's `JSON.parse` on the values the profile
store exchanges.  Values are null, booleans, decimal numbers (with an
optional fraction part), strings (an escaped character is taken
literally), arrays and objects.  The parser is a recursive-descent
parser over the character list, structurally recursive on a fuel
argument so that it evaluates inside the kernel; `none` embeds the
`SyntaxError` that `JSON.parse` throws on malformed text.
-/

/-- A JSON value. -/
inductive Json where
  | null : Json
  | bool (b : Bool) : Json
  | num (v : JsNum) : Json
  | str (s : String) : Json
  | arr (items : List Json) : Json
  | obj (fields : List (String × Json)) : Json

/-- Skip JSON whitespace. -/
def skipWs (cs : List Char) : List Char :=
  cs.dropWhile (fun c => c == ' ' || c == '\n' || c == '\t' || c == '\r')

/-- Read a run of decimal digits as a number together with how many
digits were read. -/
def readDigits : List Char → ℕ → ℕ → (ℕ × ℕ × List Char)
  | c :: rest, acc, count =>
    if c.isDigit then readDigits rest (acc * 10 + (c.toNat - '0'.toNat)) (count + 1)
    else (acc, count, c :: rest)
  | [], acc, count => (acc, count, [])

/-- Read the body of a JSON string after the opening quote; an escaped
character is taken literally. -/
def readStringBody : List Char → List Char → Option (String × List Char)
  | '"' :: rest, acc => some (String.mk acc.reverse, rest)
  | '\\' :: c :: rest, acc => readStringBody rest (c :: acc)
  | c :: rest, acc =>
    if c = '\\' then none else readStringBody rest (c :: acc)
  | [], _ => none

/-- Parse a JSON number at the head of the input (after any sign has
been noted by the caller). -/
def readNumber (neg : Bool) (cs : List Char) : Option (Json × List Char) :=
  let d := readDigits cs 0 0
  if d.2.1 = 0 then none
  else
    match d.2.2 with
    | '.' :: rest =>
      let f := readDigits rest 0 0
      if f.2.1 = 0 then none
      else
        let den : ℕ := 10 ^ f.2.1
        let mag : ℤ := (d.1 * den + f.1 : ℕ)
        some (Json.num ⟨if neg then -mag else mag, den⟩, f.2.2)
    | rest => some (Json.num ⟨if neg then -(d.1 : ℤ) else (d.1 : ℕ), 1⟩, rest)

/-- One step of the recursive-descent JSON parser.  An array or object
tail is parsed by re-entering the parser on the remainder prefixed with
the opening bracket again, so the recursion is structural on the fuel. -/
def parseJ : ℕ → List Char → Option (Json × List Char)
  | 0, _ => none
  | fuel + 1, cs =>
    match skipWs cs with
    | 'n' :: 'u' :: 'l' :: 'l' :: rest => some (Json.null, rest)
    | 't' :: 'r' :: 'u' :: 'e' :: rest => some (Json.bool true, rest)
    | 'f' :: 'a' :: 'l' :: 's' :: 'e' :: rest => some (Json.bool false, rest)
    | '"' :: rest =>
      match readStringBody rest [] with
      | some (s, rest1) => some (Json.str s, rest1)
      | none => none
    | '[' :: rest =>
      (match skipWs rest with
      | ']' :: rest1 => some (Json.arr [], rest1)
      | body =>
        match parseJ fuel body with
        | some (item, rest1) =>
          (match skipWs rest1 with
          | ',' :: rest2 =>
            (match parseJ fuel ('[' :: rest2) with
            | some (Json.arr items, rest3) => some (Json.arr (item :: items), rest3)
            | _ => none)
          | ']' :: rest2 => some (Json.arr [item], rest2)
          | _ => none)
        | none => none)
    | '\x7b' :: rest =>
      (match skipWs rest with
      | '\x7d' :: rest1 => some (Json.obj [], rest1)
      | '"' :: body =>
        (match readStringBody body [] with
        | some (key, rest1) =>
          (match skipWs rest1 with
          | ':' :: rest2 =>
            (match parseJ fuel rest2 with
            | some (value, rest3) =>
              (match skipWs rest3 with
              | ',' :: rest4 =>
                (match parseJ fuel ('\x7b' :: rest4) with
                | some (Json.obj fields, rest5) =>
                  some (Json.obj ((key, value) :: fields), rest5)
                | _ => none)
              | '\x7d' :: rest4 => some (Json.obj [(key, value)], rest4)
              | _ => none)
            | none => none)
          | _ => none)
        | none => none)
      | _ => none)
    | '-' :: rest => readNumber true rest
    | body => readNumber false body

/-- `JSON.parse`: parse one value and require only whitespace after it;
`none` is the thrown `SyntaxError`. -/
def Json.parse (s : String) : Option Json :=
  match parseJ (2 * s.length + 4) s.data with
  | some (v, rest) => if skipWs rest = [] then some v else none
  | none => none

/-- The initial `userProfile` global: budget 100000, medium risk, medium
timeline. -/
def defaultProfile : Json :=
  Json.obj [("budget", Json.num (JsNum.ofInt 100000)),
            ("risk_tolerance", Json.str "medium"),
            ("timeline", Json.str "medium")]

/-- `loadUserProfile` (frontend script): read the stored value; a missing
key or a falsy (empty) string leaves the default profile in place; any
other string goes through `JSON.parse`, whose result is adopted wholesale
on success and whose `SyntaxError` propagates out of `loadUserProfile`
on failure — there is no try/catch around the parse.  The result is the
`userProfile` global after the call, or the propagated exception. -/
def loadUserProfile (stored : Option String) : Except String Json :=
  match stored with
  | none => Except.ok defaultProfile
  | some s =>
    if s = "" then Except.ok defaultProfile
    else
      match Json.parse s with
      | some j => Except.ok j
      | none => Except.error "SyntaxError"

/-- Last keystroke of a nonempty burst, written with an explicit head so
that no side condition is needed. -/
def lastPair (a : ℕ × String) : List (ℕ × String) → ℕ × String
  | [] => a
  | b :: rest => lastPair b rest

/-- The suggestion queries actually handed to `fetchSuggestions` by the
debounced input listener over a keystroke stream: one per timer firing,
each the trimmed field text read at firing time. -/
def debouncedFetches (delay : ℕ) (events : List (ℕ × String)) : List String :=
  (debounceRun delay events).map (fun p => inputHandlerQuery p.2)

/-- Sample payload of the suggestion response for the later query
`"TCS"`. -/
def suggTCS : Sugg := ⟨"TCS", "NSE", some "Tata Consultancy Services"⟩

/-- Sample payload of the suggestion response for the earlier query
`"TC"`. -/
def suggTCI : Sugg := ⟨"TCI", "NSE", none⟩

/-- The overlapping-fetch trace: a fetch for `"TC"` is issued, then one
for `"TCS"`; the later fetch's response arrives and is applied first, and
the earlier (now stale) response arrives after it. -/
def staleTrace : List SuggestEvent :=
  [SuggestEvent.issue "TC", SuggestEvent.issue "TCS",
   SuggestEvent.arriveOk "TCS" [suggTCS],
   SuggestEvent.arriveOk "TC" [suggTCI]]

/-!
Theorems.
-/

/-- The executable guard of `formatNumber` against an integer threshold,
read back as an integer cross-multiplication inequality. -/
lemma jsle_ofInt_iff (c : ℤ) (q : JsNum) :
    JsNum.le (JsNum.ofInt c) q = true ↔ c * (q.den : ℤ) ≤ q.num := by
  simp [JsNum.le, JsNum.ofInt]

/-- The cross-multiplication inequality means exactly the rational
comparison against the threshold. -/
lemma toRat_le_iff (c : ℤ) (q : JsNum) (hden : 0 < q.den) :
    (c : ℚ) ≤ q.toRat ↔ c * (q.den : ℤ) ≤ q.num := by
  unfold JsNum.toRat
  rw [le_div_iff₀ (by exact_mod_cast hden)]
  constructor <;> intro h <;> exact_mod_cast h

/-- Strict version of `toRat_le_iff`. -/
lemma toRat_lt_iff (c : ℤ) (q : JsNum) (hden : 0 < q.den) :
    q.toRat < (c : ℚ) ↔ q.num < c * (q.den : ℤ) := by
  rw [← not_le, ← not_le, toRat_le_iff c q hden]

/-- Claim C5: for every number `num`, `formatNumber` takes the crore
branch (divide by 10,000,000, render with two decimals) exactly when
`num ≥ 10,000,000`, otherwise the lakh branch (divide by 100,000) exactly
when `num ≥ 100,000`, and otherwise the plain locale-grouped branch —
these two thresholds and divisors, in that order.  Each hypothesis is the
integer cross-multiplied form of the threshold comparison, and the
conclusion restates it as the rational comparison. -/
theorem formatNumber_thresholds (q : JsNum) (hden : 0 < q.den) :
    (10000000 * (q.den : ℤ) ≤ q.num →
      (10000000 : ℚ) ≤ q.toRat ∧ formatNumber q = NumForm.cr (q.divN 10000000)) ∧
    (q.num < 10000000 * (q.den : ℤ) → 100000 * (q.den : ℤ) ≤ q.num →
      q.toRat < 10000000 ∧ (100000 : ℚ) ≤ q.toRat ∧
        formatNumber q = NumForm.lakh (q.divN 100000)) ∧
    (q.num < 100000 * (q.den : ℤ) →
      q.toRat < 100000 ∧ formatNumber q = NumForm.plain q) := by
  refine ⟨fun h => ⟨?_, ?_⟩, fun h1 h2 => ⟨?_, ?_, ?_⟩, fun h => ⟨?_, ?_⟩⟩
  · have := (toRat_le_iff 10000000 q hden).mpr h
    exact_mod_cast this
  · unfold formatNumber
    rw [if_pos ((jsle_ofInt_iff 10000000 q).mpr h)]
  · have := (toRat_lt_iff 10000000 q hden).mpr h1
    exact_mod_cast this
  · have := (toRat_le_iff 100000 q hden).mpr h2
    exact_mod_cast this
  · unfold formatNumber
    rw [if_neg, if_pos ((jsle_ofInt_iff 100000 q).mpr h2)]
    intro hc
    exact absurd ((jsle_ofInt_iff 10000000 q).mp hc) (not_le.mpr h1)
  · have := (toRat_lt_iff 100000 q hden).mpr h
    exact_mod_cast this
  · unfold formatNumber
    rw [if_neg, if_neg]
    · intro hc
      have := (jsle_ofInt_iff 100000 q).mp hc
      omega
    · intro hc
      have := (jsle_ofInt_iff 10000000 q).mp hc
      omega

/-- Witness for C5: 12,500,000 lands in the crore branch, 250,000 in the
lakh branch, 5,000 in the plain branch. -/
theorem formatNumber_thresholds_witness :
    ((10000000 : ℚ) ≤ (JsNum.ofInt 12500000).toRat ∧
      formatNumber (JsNum.ofInt 12500000) = NumForm.cr ((JsNum.ofInt 12500000).divN 10000000)) ∧
    ((JsNum.ofInt 250000).toRat < 10000000 ∧ (100000 : ℚ) ≤ (JsNum.ofInt 250000).toRat ∧
      formatNumber (JsNum.ofInt 250000) = NumForm.lakh ((JsNum.ofInt 250000).divN 100000)) ∧
    ((JsNum.ofInt 5000).toRat < 100000 ∧
      formatNumber (JsNum.ofInt 5000) = NumForm.plain (JsNum.ofInt 5000)) :=
  ⟨(formatNumber_thresholds (JsNum.ofInt 12500000) (by decide)).1 (by decide),
   (formatNumber_thresholds (JsNum.ofInt 250000) (by decide)).2.1 (by decide) (by decide),
   (formatNumber_thresholds (JsNum.ofInt 5000) (by decide)).2.2 (by decide)⟩

/-- Claim C10: every negative number fails both threshold comparisons of
`formatNumber`, so it is rendered in the plain locale-grouped branch —
the crore and lakh branches are never taken for negative inputs. -/
theorem formatNumber_negative (q : JsNum) (hden : 0 < q.den) (hneg : q.num < 0) :
    formatNumber q = NumForm.plain q ∧ q.toRat < 0 := by
  constructor
  · unfold formatNumber
    rw [if_neg, if_neg]
    · intro hc
      have := (jsle_ofInt_iff 100000 q).mp hc
      omega
    · intro hc
      have := (jsle_ofInt_iff 10000000 q).mp hc
      omega
  · unfold JsNum.toRat
    apply div_neg_of_neg_of_pos
    · exact_mod_cast hneg
    · exact_mod_cast hden

/-- Witness for C10: -20,000,000 is rendered plain, not as a negative
crore value. -/
theorem formatNumber_negative_witness :
    formatNumber (JsNum.ofInt (-20000000)) = NumForm.plain (JsNum.ofInt (-20000000)) ∧
      (JsNum.ofInt (-20000000)).toRat < 0 :=
  formatNumber_negative (JsNum.ofInt (-20000000)) (by decide) (by decide)

/-- Claim C9: a finite change of exactly 0 renders with the `'+'` sign
prefix — the change field reads `+0.00` whatever the percentage field
holds — and the element's class is the positive one: zero is grouped with
the positive branch. -/
theorem zeroChange_positive (pct : Option JsNum) :
    signedFixed2 (some (JsNum.ofInt 0)) = "+0.00" ∧
    changeText (some (JsNum.ofInt 0)) pct = "+0.00" ++ " (" ++ signedFixed2 pct ++ "%)" ∧
    changeClassName (some (JsNum.ofInt 0)) = "price-change positive" := by
  have h : signedFixed2 (some (JsNum.ofInt 0)) = "+0.00" := by decide
  refine ⟨h, ?_, by decide⟩
  unfold changeText
  rw [h]

/-- Repeated `'down'` navigation from index 0 walks through the indices
modulo the item count. -/
lemma navDown_iterate (n : ℕ) (hn : 0 < n) (k : ℕ) :
    Nat.iterate (navigateSuggestions "down" n) k 0 = ((k % n : ℕ) : ℤ) := by
  induction k with
  | zero => simp
  | succ k ih =>
    rw [Function.iterate_succ_apply', ih]
    unfold navigateSuggestions
    rw [if_neg hn.ne', if_pos rfl]
    have h1 : ((k % n : ℕ) : ℤ) + 1 = (((k % n + 1 : ℕ)) : ℤ) := by push_cast; ring
    rw [h1, ← Int.ofNat_tmod]
    exact congrArg _ ((Nat.mod_modEq k n).add_right 1)

/-- Claim C6: on a nonempty list of `n` items, `'down'` from the
no-selection index -1 lands on 0, `n` consecutive `'down'` steps from 0
return to 0, and `'up'` from 0 lands on `n - 1`; on the empty list
navigation in either direction leaves the index unchanged. -/
theorem navigateSuggestions_circular (n : ℕ) (hn : 0 < n) :
    navigateSuggestions "down" n (-1) = 0 ∧
    Nat.iterate (navigateSuggestions "down" n) n 0 = 0 ∧
    navigateSuggestions "up" n 0 = (n : ℤ) - 1 ∧
    (∀ direction i, navigateSuggestions direction 0 i = i) := by
  refine ⟨?_, ?_, ?_, fun direction i => by simp [navigateSuggestions]⟩
  · unfold navigateSuggestions
    rw [if_neg hn.ne', if_pos rfl]
    norm_num
  · rw [navDown_iterate n hn n, Nat.mod_self]
    rfl
  · unfold navigateSuggestions
    rw [if_neg hn.ne', if_neg (by decide), if_pos rfl]
    have h2 : (0 : ℤ) - 1 + (n : ℤ) = (n : ℤ) - 1 := by ring
    rw [h2, Int.tmod_eq_emod (by omega) (by omega), Int.emod_eq_of_lt (by omega) (by omega)]

/-- Witness for C6 on a three-item list. -/
theorem navigateSuggestions_circular_witness :
    navigateSuggestions "down" 3 (-1) = 0 ∧
    Nat.iterate (navigateSuggestions "down" 3) 3 0 = 0 ∧
    navigateSuggestions "up" 3 0 = (3 : ℤ) - 1 ∧
    (∀ direction i, navigateSuggestions direction 0 i = i) :=
  navigateSuggestions_circular 3 (by decide)

/-- Counterexample for C2: the stored value `"\x7b"` (a lone opening
brace) is malformed, and `loadUserProfile` propagates the parse error
instead of falling back to the default profile. -/
theorem loadUserProfile_malformed_throws :
    loadUserProfile (some "\x7b") = Except.error "SyntaxError" ∧
    loadUserProfile (some "\x7b") ≠ Except.ok defaultProfile := by
  have h : loadUserProfile (some "\x7b") = Except.error "SyntaxError" := rfl
  refine ⟨h, ?_⟩
  rw [h]
  exact fun hc => Except.noConfusion hc

/-- Claim C2 as amended: an absent stored value, or the falsy empty
string, keeps the default profile `{budget: 100000, risk_tolerance:
medium, timeline: medium}` and the load succeeds; a present non-empty
value goes through `JSON.parse`, whose successful result is adopted
wholesale and whose failure makes `loadUserProfile` itself fail — the
exception propagates, there is no fallback to the defaults on malformed
data. -/
theorem loadUserProfile_spec (stored : Option String) :
    (stored = none → loadUserProfile stored = Except.ok defaultProfile) ∧
    (stored = some "" → loadUserProfile stored = Except.ok defaultProfile) ∧
    (∀ s j, stored = some s → s ≠ "" → Json.parse s = some j →
      loadUserProfile stored = Except.ok j) ∧
    (∀ s, stored = some s → s ≠ "" → Json.parse s = none →
      loadUserProfile stored = Except.error "SyntaxError") := by
  refine ⟨fun h => ?_, fun h => ?_, fun s j hs hne hp => ?_, fun s hs hne hp => ?_⟩
  · rw [h]; rfl
  · rw [h]; rfl
  · rw [hs]
    show (if s = "" then Except.ok defaultProfile
      else match Json.parse s with
        | some j => Except.ok j
        | none => Except.error "SyntaxError") = Except.ok j
    rw [if_neg hne, hp]
  · rw [hs]
    show (if s = "" then Except.ok defaultProfile
      else match Json.parse s with
        | some j => Except.ok j
        | none => Except.error "SyntaxError") = Except.error "SyntaxError"
    rw [if_neg hne, hp]

/-- Witness for C2 (amended): the empty string keeps the defaults, and a
malformed stored value makes the load fail. -/
theorem loadUserProfile_spec_witness :
    loadUserProfile (some "") = Except.ok defaultProfile ∧
    loadUserProfile (some "\x7bbad") = Except.error "SyntaxError" :=
  ⟨(loadUserProfile_spec (some "")).2.1 rfl,
   (loadUserProfile_spec (some "\x7bbad")).2.2.2 "\x7bbad" rfl (by decide) (by rfl)⟩

/-- A pending debounce timer whose deadline lies strictly after the next
keystroke of a burst never fires inside the burst: the run produces
exactly one firing, at the last keystroke's time plus the delay, reading
the last keystroke's text. -/
lemma debounceGo_burst (delay : ℕ) :
    ∀ (evs : List (ℕ × String)) (t0 : ℕ) (s0 : String) (pending : Option ℕ) (text : String),
      burstOk delay ((t0, s0) :: evs) = true →
      (∀ f, pending = some f → t0 < f) →
      debounceGo delay pending text ((t0, s0) :: evs) =
        [((lastPair (t0, s0) evs).1 + delay, (lastPair (t0, s0) evs).2)] := by
  intro evs
  induction evs with
  | nil =>
    intro t0 s0 pending text _ hp
    cases pending with
    | none => rfl
    | some f =>
      have hf := hp f rfl
      simp only [debounceGo]
      rw [if_neg (by omega)]
      rfl
  | cons b rest ih =>
    intro t0 s0 pending text hb hp
    have hb1 : (t0 < b.1 ∧ b.1 < t0 + delay) ∧ burstOk delay (b :: rest) = true := by
      have hb2 := hb
      simp only [burstOk, Bool.and_eq_true, decide_eq_true_eq] at hb2
      exact hb2
    have hstep : debounceGo delay pending text ((t0, s0) :: b :: rest) =
        debounceGo delay (some (t0 + delay)) s0 (b :: rest) := by
      cases pending with
      | none => rfl
      | some f =>
        have hf := hp f rfl
        simp only [debounceGo]
        rw [if_neg (by omega)]
    rw [hstep]
    have hlast : lastPair (t0, s0) (b :: rest) = lastPair b rest := rfl
    rw [hlast]
    have hbb : burstOk delay ((b.1, b.2) :: rest) = true := by
      have := hb1.2
      cases b
      exact this
    exact ih b.1 b.2 (some (t0 + delay)) s0 hbb
      (fun f hf => by
        have h1 := Option.some.inj hf
        have h2 := hb1.1.2
        omega)

/-- Claim C3: over any nonempty keystroke burst whose consecutive events
are each less than `delay` apart, the debounced input handler fires
exactly once, at the last keystroke's time plus `delay` (so never sooner
than `delay` after the last event), and the single suggestion fetch it
issues carries the trimmed final accumulated input text — every earlier
pending timer of the burst was cancelled by the keystroke that followed
it. -/
theorem debounce_single_fire (delay : ℕ) (t0 : ℕ) (s0 : String) (evs : List (ℕ × String))
    (hb : burstOk delay ((t0, s0) :: evs) = true) :
    debounceRun delay ((t0, s0) :: evs) =
      [((lastPair (t0, s0) evs).1 + delay, (lastPair (t0, s0) evs).2)] ∧
    debouncedFetches delay ((t0, s0) :: evs) = [jsTrim (lastPair (t0, s0) evs).2] := by
  have h := debounceGo_burst delay evs t0 s0 none "" hb (fun f hf => Option.noConfusion hf)
  refine ⟨h, ?_⟩
  unfold debouncedFetches debounceRun
  unfold debounceRun at h
  rw [h]
  rfl

/-- Witness for C3: the burst `T`, `TC`, `TCS` at 0ms, 100ms, 180ms with
the 250ms delay fires once, at 430ms, fetching `"TCS"`. -/
theorem debounce_single_fire_witness :
    debounceRun 250 [(0, "T"), (100, "TC"), (180, "TCS")] =
      [((lastPair (0, "T") [(100, "TC"), (180, "TCS")]).1 + 250,
        (lastPair (0, "T") [(100, "TC"), (180, "TCS")]).2)] ∧
    debouncedFetches 250 [(0, "T"), (100, "TC"), (180, "TCS")] =
      [jsTrim (lastPair (0, "T") [(100, "TC"), (180, "TCS")]).2] :=
  debounce_single_fire 250 0 "T" [(100, "TC"), (180, "TCS")] (by decide)

/-- Claim C1 failing run: on the overlapping-fetch trace — the fetch for
`"TC"` issued before the fetch for `"TCS"`, the later response applied
first, the stale earlier response arriving last — the code ends with the
stale `"TC"` payload displayed, which differs from the most recent
query's payload: `fetchSuggestions` keeps no request identity, so the
stale response is applied rather than discarded. -/
theorem staleResponse_overwrites :
    (suggestRun suggestInit staleTrace).lastSuggestions = [suggTCI] ∧
    (suggestRun suggestInit staleTrace).issued = ["TC", "TCS"] ∧
    [suggTCI] ≠ [suggTCS] := by
  refine ⟨by decide, by decide, by decide⟩

/-- Claim C4: however the awaited part of `searchStock` ends (success,
handled non-2xx failure, or thrown exception) — and likewise for
`getRecommendations` — the `finally` block restores the trigger's label
and re-enables it before the operation returns. -/
theorem busyIndicator_release (inputText : String) (oc : FetchOutcome) (roc : RecOutcome)
    (ui : SearchUI) (rui : RecUI)
    (h : jsToUpper (jsTrim inputText) ≠ "") :
    ((searchStock inputText oc ui).1.searchBtnHtml = "Search" ∧
     (searchStock inputText oc ui).1.searchBtnDisabled = false) ∧
    ((getRecommendations roc rui).recBtnHtml = "Get Recommendations" ∧
     (getRecommendations roc rui).recBtnDisabled = false) := by
  constructor
  · unfold searchStock
    rw [if_neg h]
    cases oc <;> exact ⟨rfl, rfl⟩
  · cases roc <;> exact ⟨rfl, rfl⟩

/-- Witness for C4: a thrown search and a non-2xx recommendation both
leave their buttons restored and enabled. -/
theorem busyIndicator_release_witness :
    ((searchStock "tcs" FetchOutcome.thrown
        ⟨"Search", false, none, false, none, none, none⟩).1.searchBtnHtml = "Search" ∧
     (searchStock "tcs" FetchOutcome.thrown
        ⟨"Search", false, none, false, none, none, none⟩).1.searchBtnDisabled = false) ∧
    ((getRecommendations (RecOutcome.httpError none)
        ⟨"Get Recommendations", false, none, none⟩).recBtnHtml = "Get Recommendations" ∧
     (getRecommendations (RecOutcome.httpError none)
        ⟨"Get Recommendations", false, none, none⟩).recBtnDisabled = false) :=
  busyIndicator_release "tcs" FetchOutcome.thrown (RecOutcome.httpError none)
    ⟨"Search", false, none, false, none, none, none⟩
    ⟨"Get Recommendations", false, none, none⟩ (by decide)

/-- Claim C7: when the search field trims to the empty string,
`searchStock` returns before doing anything: no request is issued and the
UI state is returned untouched. -/
theorem emptySearch_noop (inputText : String) (oc : FetchOutcome) (ui : SearchUI)
    (h : jsTrim inputText = "") :
    searchStock inputText oc ui = (ui, []) := by
  unfold searchStock
  have h2 : jsToUpper (jsTrim inputText) = "" := by rw [h]; rfl
  rw [h2, if_pos rfl]

/-- Witness for C7: the all-whitespace input and the empty input are
complete no-ops, also on a UI that is already displaying a stock. -/
theorem emptySearch_noop_witness :
    searchStock "   " FetchOutcome.thrown
        ⟨"Search", false, some "Reliance", true, some "RELIANCE", some "RELIANCE", none⟩ =
      (⟨"Search", false, some "Reliance", true, some "RELIANCE", some "RELIANCE", none⟩, []) ∧
    searchStock "" FetchOutcome.thrown
        ⟨"Search", false, none, false, none, none, none⟩ =
      (⟨"Search", false, none, false, none, none, none⟩, []) :=
  ⟨emptySearch_noop "   " FetchOutcome.thrown _ (by decide),
   emptySearch_noop "" FetchOutcome.thrown _ (by decide)⟩

/-- Claim C8: from any well-formed poll state, `startAutoRefresh` leaves
exactly the freshly created interval live (an already active poll is
cancelled first), well-formedness — at most one live interval — is
preserved, `stopAutoRefresh` with no live interval is a no-op, and
`stopAutoRefresh` always ends with no live interval. -/
theorem pollSingleton (st : PollState) (h : PollInv st) :
    (startAutoRefresh st).sys.active = [st.sys.next] ∧
    PollInv (startAutoRefresh st) ∧
    (st.sys.active = [] → stopAutoRefresh st = st) ∧
    (stopAutoRefresh st).sys.active = [] := by
  obtain ⟨hact, hfresh⟩ := h
  have hactive1 : ∀ sys1, sys1 =
      (match st.refreshInterval with
        | some id => clearIntervalSys st.sys id
        | none => st.sys) → sys1.active = [] ∧ sys1.next = st.sys.next := by
    intro sys1 hsys1
    cases hi : st.refreshInterval with
    | none =>
      rw [hi] at hsys1
      rcases hact with he | ⟨id, hid, _⟩
      · exact ⟨hsys1 ▸ he, hsys1 ▸ rfl⟩
      · rw [hi] at hid; exact Option.noConfusion hid
    | some id =>
      rw [hi] at hsys1
      rcases hact with he | ⟨id2, hid2, hl⟩
      · subst hsys1
        simp [clearIntervalSys, he]
      · rw [hi] at hid2
        have : id2 = id := (Option.some.inj hid2).symm
        subst this
        subst hsys1
        simp [clearIntervalSys, hl]
  refine ⟨?_, ?_, ?_, ?_⟩
  · unfold startAutoRefresh setIntervalSys
    have := hactive1 _ rfl
    simp [this.1, this.2]
  · unfold startAutoRefresh setIntervalSys PollInv
    have := hactive1 _ rfl
    constructor
    · right
      exact ⟨_, rfl, by simp [this.1]⟩
    · intro id hid
      have hh := Option.some.inj hid
      simp [← hh, this.2]
  · intro hempty
    obtain ⟨⟨act, nxt⟩, ri⟩ := st
    simp only at hempty
    subst hempty
    cases ri with
    | none => rfl
    | some id => rfl
  · unfold stopAutoRefresh
    cases hi : st.refreshInterval with
    | none =>
      rcases hact with he | ⟨id, hid, _⟩
      · exact he
      · rw [hi] at hid; exact Option.noConfusion hid
    | some id =>
      rcases hact with he | ⟨id2, hid2, hl⟩
      · simp [clearIntervalSys, he]
      · rw [hi] at hid2
        have : id2 = id := (Option.some.inj hid2).symm
        subst this
        simp [clearIntervalSys, hl]

/-- Witness for C8: starting over an active poll (handle 7 live) cancels
it and leaves exactly the fresh handle 8 live; stopping ends with no live
interval. -/
theorem pollSingleton_witness :
    (startAutoRefresh ⟨⟨[7], 8⟩, some 7⟩).sys.active = [8] ∧
    PollInv (startAutoRefresh ⟨⟨[7], 8⟩, some 7⟩) ∧
    ((⟨⟨[7], 8⟩, some 7⟩ : PollState).sys.active = [] →
      stopAutoRefresh ⟨⟨[7], 8⟩, some 7⟩ = ⟨⟨[7], 8⟩, some 7⟩) ∧
    (stopAutoRefresh ⟨⟨[7], 8⟩, some 7⟩).sys.active = [] :=
  pollSingleton ⟨⟨[7], 8⟩, some 7⟩
    ⟨Or.inr ⟨7, rfl, rfl⟩, fun id hid => by
      injection hid with h
      subst h
      decide⟩
